import Mathlib

/-!
Verification of the field-extraction and coordinate-reconciliation pipeline
of the pdf-extractor repository.  Python strings are modelled as `List Char`,
Python floats as `Rat`, Python exceptions as `Except Unit`.  Every definition
is a shallow embedding of the corresponding function in
`pdf_extractor/core/extractor.py`, `pdf_extractor/services/gpt_service.py`
or `pdf_extractor/services/sharepoint_schema_builder.py`.
-/

set_option maxRecDepth 10000

abbrev Str := List Char

deriving instance DecidableEq for Except

/-! ## Basic character and string helpers (model of Python primitives) -/

/-- ASCII whitespace characters removed by Python `str.strip()`. -/
def isWsCh (c : Char) : Bool :=
  c = ' ' || c = '\t' || c = '\n' || c = '\r' || c = '\x0b' || c = '\x0c'

/-- Model of Python `str.strip()`. -/
def pyStrip (l : Str) : Str :=
  ((l.dropWhile isWsCh).reverse.dropWhile isWsCh).reverse

/-- `startsWithStr needle hay` holds when `needle` is a prefix of `hay`. -/
def startsWithStr : Str → Str → Bool
  | [], _ => true
  | _ :: _, [] => false
  | a :: as, b :: bs => a = b && startsWithStr as bs

/-- Model of Python substring containment `needle in hay` (case sensitive,
contiguous). -/
def containsSub (needle : Str) : Str → Bool
  | [] => needle.isEmpty
  | b :: t => startsWithStr needle (b :: t) || containsSub needle t

/-- Model of Python `str.lower()` restricted to the basic latin letters. -/
def pyLower (l : Str) : Str := l.map Char.toLower

/-- Model of Python `str.upper()` restricted to the basic latin letters. -/
def pyUpper (l : Str) : Str := l.map Char.toUpper

/-! ## `PDFExtractor._is_filename_field` -/

/-- Model of `PDFExtractor._is_filename_field`: the lowercased key must
contain one of five fixed substrings. -/
def isFilenameField (fieldKey : Str) : Bool :=
  let lk := pyLower fieldKey
  containsSub "filename".toList lk ||
  containsSub "file_name".toList lk ||
  containsSub "file name".toList lk ||
  containsSub "document_name".toList lk ||
  containsSub "document name".toList lk

/-! ### Character-level case lemmas -/

theorem char_toNat_ofNat (n : Nat) (h : n < 55296) : (Char.ofNat n).toNat = n := by
  have hv : n.isValidChar := Or.inl h
  rw [Char.ofNat, dif_pos hv]
  rfl

theorem char_ofNat_toNat (c : Char) : Char.ofNat c.toNat = c := by
  have hv : c.toNat.isValidChar := by
    have := c.valid
    rcases this with h | h
    · exact Or.inl h
    · exact Or.inr h
  rw [Char.ofNat, dif_pos hv]
  apply Char.eq_of_val_eq
  apply UInt32.eq_of_toBitVec_eq
  simp only [Char.ofNatAux, Char.toNat, UInt32.toNat]
  apply BitVec.eq_of_toNat_eq
  simp [BitVec.toNat_ofNatLt]

theorem toLower_toUpper (c : Char) : (c.toUpper).toLower = c.toLower := by
  unfold Char.toUpper
  by_cases h : c.toNat ≥ 97 ∧ c.toNat ≤ 122
  · rw [if_pos h]
    unfold Char.toLower
    have h32 : (c.toNat - 32) < 55296 := by omega
    rw [char_toNat_ofNat _ h32]
    have hc1 : c.toNat - 32 ≥ 65 ∧ c.toNat - 32 ≤ 90 := by omega
    rw [if_pos hc1]
    have hc2 : ¬ (c.toNat ≥ 65 ∧ c.toNat ≤ 90) := by omega
    rw [if_neg hc2]
    have : c.toNat - 32 + 32 = c.toNat := by omega
    rw [this, char_ofNat_toNat]
  · rw [if_neg h]

theorem pyLower_pyUpper (l : Str) : pyLower (pyUpper l) = pyLower l := by
  unfold pyLower pyUpper
  rw [List.map_map]
  apply List.map_congr_left
  intro c _
  exact toLower_toUpper c

/-! ## Fixed-pattern matcher (models Python `re` on the extractor's patterns)

The two patterns used by the extractor, `<@(\d+):([\d.]+),([\d.]+),([\d.]+),([\d.]+)>`
and `<@\d+:[\d.,]+>`, never place a separator character inside a character
class, so greedy maximal-munch matching without backtracking is exactly
Python `re` behaviour on them. -/

/-- Consume one expected literal character. -/
def litCh (c : Char) : Str → Option Str
  | [] => none
  | a :: rest => if a = c then some rest else none

/-- Greedy `+` over a character class: consume one or more characters
satisfying `p` (maximal munch). -/
def munch1 (p : Char → Bool) (l : Str) : Option (Str × Str) :=
  let tk := l.takeWhile p
  if tk.isEmpty then none else some (tk, l.dropWhile p)

inductive PatStep where
  | lit (c : Char)
  | cls (p : Char → Bool)

/-- Run a sequence of literal / class-plus steps anchored at the start of
`l`, collecting each class group and returning the rest of the input. -/
def runPat : List PatStep → Str → Option (List Str × Str)
  | [], l => some ([], l)
  | .lit c :: ps, l =>
    match litCh c l with
    | none => none
    | some r => runPat ps r
  | .cls p :: ps, l =>
    match munch1 p l with
    | none => none
    | some (g, r) =>
      match runPat ps r with
      | none => none
      | some (gs, rest) => some (g :: gs, rest)

/-- Leftmost-match search (model of `re.search`): try the pattern at every
position from the left, return the groups of the first match. -/
def searchPat (ps : List PatStep) : Str → Option (List Str)
  | [] => (runPat ps []).map (fun x => x.1)
  | c :: t =>
    match runPat ps (c :: t) with
    | some (gs, _) => some gs
    | none => searchPat ps t

def isDigitCh (c : Char) : Bool := 48 ≤ c.toNat && c.toNat ≤ 57
def isDigitDot (c : Char) : Bool := isDigitCh c || c = '.'
def isDigitDotComma (c : Char) : Bool := isDigitDot c || c = ','

/-- The decoder pattern `<@(\d+):([\d.]+),([\d.]+),([\d.]+),([\d.]+)>` of
`_parse_coordinate_from_response`. -/
def coordPat : List PatStep :=
  [.lit '<', .lit '@', .cls isDigitCh, .lit ':', .cls isDigitDot, .lit ',',
   .cls isDigitDot, .lit ',', .cls isDigitDot, .lit ',', .cls isDigitDot, .lit '>']

/-- The marker-removal pattern `<@\d+:[\d.,]+>` of
`_clean_value_from_coordinates`. -/
def markerPat : List PatStep :=
  [.lit '<', .lit '@', .cls isDigitCh, .lit ':', .cls isDigitDotComma, .lit '>']

/-- Model of Python `int()` on a digit group. -/
def parseNatDigits (l : Str) : Nat :=
  l.foldl (fun acc c => 10 * acc + (c.toNat - 48)) 0

/-- Model of Python `float()` restricted to strings over `[\d.]` (the only
strings the extractor ever feeds it): at most one dot and at least one
digit, otherwise a `ValueError`. -/
def pyFloatOfDigitDot (l : Str) : Except Unit Rat :=
  if l.isEmpty then .error () else
  let ip := l.takeWhile (fun c => c ≠ '.')
  let rest := l.dropWhile (fun c => c ≠ '.')
  match rest with
  | [] => .ok (parseNatDigits ip)
  | _ :: fp =>
    if fp.contains '.' then .error ()
    else if ip.isEmpty && fp.isEmpty then .error ()
    else .ok ((parseNatDigits ip : Rat) + (parseNatDigits fp : Rat) / (10 : Rat) ^ fp.length)

/-- Model of `PDFExtractor._parse_coordinate_from_response`: search for the
coordinate pattern anywhere in the value; `.ok none` when no match,
`.ok (some (page, bbox))` on a match, `.error` when Python `float()` would
raise on a matched group. -/
def parseCoordinateFromResponse (value : Str) :
    Except Unit (Option (Nat × (Rat × Rat × Rat × Rat))) :=
  match searchPat coordPat value with
  | none => .ok none
  | some gs =>
    match gs with
    | [g1, g2, g3, g4, g5] =>
      match pyFloatOfDigitDot g2, pyFloatOfDigitDot g3,
            pyFloatOfDigitDot g4, pyFloatOfDigitDot g5 with
      | .ok a, .ok b, .ok c, .ok d => .ok (some (parseNatDigits g1, (a, b, c, d)))
      | _, _, _, _ => .error ()
    | _ => .error ()

/-- One pass of `re.sub(r'<@\d+:[\d.,]+>', '', value)`: scan left to right,
drop each non-overlapping match, continue after it.  The fuel is the input
length, which each step strictly consumes. -/
def removeCoordMarkersF : Nat → Str → Str
  | 0, l => l
  | _ + 1, [] => []
  | fuel + 1, c :: t =>
    match runPat markerPat (c :: t) with
    | some (_, rest) => removeCoordMarkersF fuel rest
    | none => c :: removeCoordMarkersF fuel t

def removeCoordMarkers (l : Str) : Str := removeCoordMarkersF l.length l

/-- Model of `re.sub(r'^\[(.*?)\]$', r'\1', s)` on a stripped string: remove
one pair of enclosing square brackets when the first character is `[`, the
last is `]` and the content contains no newline (`.` does not match `\n`). -/
def stripEnclosingBrackets (l : Str) : Str :=
  if l.head? = some '[' ∧ l.getLast? = some ']' ∧
      ((l.drop 1).dropLast.all (fun c => c ≠ '\n')) then
    (l.drop 1).dropLast
  else l

/-- Model of `PDFExtractor._clean_value_from_coordinates`. -/
def cleanValueFromCoordinates (value : Str) : Str :=
  pyStrip (stripEnclosingBrackets (pyStrip (removeCoordMarkers value)))

/-! ### Idempotence of `pyStrip` -/

theorem wsDropWhile_idem (p : Char → Bool) (l : Str) :
    (l.dropWhile p).dropWhile p = l.dropWhile p := by
  induction l with
  | nil => rfl
  | cons c t ih =>
    by_cases h : p c
    · simp [List.dropWhile_cons, h, ih]
    · simp [List.dropWhile_cons, h]

theorem dropWhile_eq_self_of_head (p : Char → Bool) (l : Str)
    (h : ∀ c, l.head? = some c → p c = false) : l.dropWhile p = l := by
  cases l with
  | nil => rfl
  | cons c t => simp [List.dropWhile_cons, h c rfl]

theorem head_false_of_dropWhile_self (p : Char → Bool) (c : Char) (t : Str)
    (h : (c :: t).dropWhile p = c :: t) : p c = false := by
  by_cases hc : p c
  · exfalso
    rw [List.dropWhile_cons, if_pos hc] at h
    have hle : (t.dropWhile p).length ≤ t.length := (List.dropWhile_sublist p).length_le
    have := congrArg List.length h
    simp at this
    omega
  · simpa using hc

theorem trimRight_sub (l : Str) :
    ∃ u, l = (l.reverse.dropWhile isWsCh).reverse ++ u := by
  refine ⟨(l.reverse.takeWhile isWsCh).reverse, ?_⟩
  rw [← List.reverse_append, List.takeWhile_append_dropWhile, List.reverse_reverse]

theorem pyStrip_idem (l : Str) : pyStrip (pyStrip l) = pyStrip l := by
  unfold pyStrip
  set x := l.dropWhile isWsCh with hx
  have hxself : x.dropWhile isWsCh = x := by rw [hx]; exact wsDropWhile_idem _ _
  set y := (x.reverse.dropWhile isWsCh).reverse with hy
  have hyself : y.dropWhile isWsCh = y := by
    cases hcase : y with
    | nil => rfl
    | cons c t =>
      apply dropWhile_eq_self_of_head
      intro d hd
      simp at hd
      subst hd
      obtain ⟨u, hu⟩ := trimRight_sub x
      rw [← hy, hcase] at hu
      rw [hu] at hxself
      have : ((c :: t) ++ u).dropWhile isWsCh = (c :: t) ++ u := hxself
      rw [List.cons_append] at this
      exact head_false_of_dropWhile_self _ _ _ this
  rw [hyself]
  conv_lhs => rw [hy, List.reverse_reverse]
  rw [wsDropWhile_idem]

/-! ## Decimal formatting (model of Python `f"{x:.1f}"`, `int()`, `round`) -/

def digitCh (d : Nat) : Char := Char.ofNat (48 + d)

def natDigitsAux : Nat → Nat → Str
  | 0, _ => []
  | fuel + 1, m =>
    if m < 10 then [digitCh m] else natDigitsAux fuel (m / 10) ++ [digitCh (m % 10)]

/-- Decimal digit string of a natural number. -/
def natDigits (m : Nat) : Str := natDigitsAux (m + 1) m

/-- `round(10*q)` with Python banker's rounding (round half to even). -/
def roundHalfEvenScaled (q : Rat) : Int :=
  let x := 10 * q
  let f := x.floor
  if x - f < 1/2 then f
  else if 1/2 < x - f then f + 1
  else if f % 2 = 0 then f else f + 1

/-- The exact rational value denoted by Python `round(q, 1)` (also the value
printed by `f"{q:.1f}"`). -/
def round1 (q : Rat) : Rat := (roundHalfEvenScaled q : Rat) / 10

def natDecimalStr (n : Nat) : Str := natDigits (n / 10) ++ ['.', digitCh (n % 10)]

/-- Model of Python `f"{q:.1f}"`. -/
def fmt1 (q : Rat) : Str :=
  if q < 0 then '-' :: natDecimalStr (roundHalfEvenScaled q).natAbs
  else natDecimalStr (roundHalfEvenScaled q).natAbs

/-! ### Digit-string lemmas -/

theorem digitCh_toNat (d : Nat) (h : d < 10) : (digitCh d).toNat = 48 + d :=
  char_toNat_ofNat _ (by omega)

theorem isDigitCh_digitCh (d : Nat) (h : d < 10) : isDigitCh (digitCh d) = true := by
  simp [isDigitCh, digitCh_toNat d h]
  omega

theorem digitCh_ne_dot (d : Nat) (h : d < 10) : (digitCh d ≠ '.') := by
  intro he
  have hc := congrArg Char.toNat he
  rw [digitCh_toNat d h] at hc
  have h46 : ('.' : Char).toNat = 46 := rfl
  rw [h46] at hc
  omega

theorem natDigitsAux_all_digits (fuel : Nat) :
    ∀ m, m < fuel → ∀ c ∈ natDigitsAux fuel m, isDigitCh c = true := by
  induction fuel with
  | zero => intro m hm; omega
  | succ fuel ih =>
    intro m hm c hc
    unfold natDigitsAux at hc
    by_cases h10 : m < 10
    · rw [if_pos h10] at hc
      simp at hc
      subst hc
      exact isDigitCh_digitCh m h10
    · rw [if_neg h10] at hc
      rcases List.mem_append.1 hc with h | h
      · exact ih (m / 10) (by omega) c h
      · simp at h
        subst h
        exact isDigitCh_digitCh _ (Nat.mod_lt _ (by omega))

theorem natDigits_all_digits (m : Nat) : ∀ c ∈ natDigits m, isDigitCh c = true :=
  natDigitsAux_all_digits (m + 1) m (Nat.lt_succ_self m)

theorem natDigitsAux_ne_nil (fuel m : Nat) : natDigitsAux (fuel + 1) m ≠ [] := by
  unfold natDigitsAux
  by_cases h10 : m < 10
  · simp [h10]
  · simp [h10]

theorem natDigits_ne_nil (m : Nat) : natDigits m ≠ [] := natDigitsAux_ne_nil m m

theorem parseNatDigits_append_digit (xs : Str) (c : Char) :
    parseNatDigits (xs ++ [c]) = 10 * parseNatDigits xs + (c.toNat - 48) := by
  unfold parseNatDigits
  rw [List.foldl_append]
  rfl

theorem parseNatDigits_natDigitsAux (fuel : Nat) :
    ∀ m, m < fuel → parseNatDigits (natDigitsAux fuel m) = m := by
  induction fuel with
  | zero => intro m hm; omega
  | succ fuel ih =>
    intro m hm
    unfold natDigitsAux
    by_cases h10 : m < 10
    · rw [if_pos h10]
      show parseNatDigits ([] ++ [digitCh m]) = m
      rw [parseNatDigits_append_digit, digitCh_toNat m h10]
      simp [parseNatDigits]
    · rw [if_neg h10]
      rw [parseNatDigits_append_digit, digitCh_toNat _ (Nat.mod_lt _ (by omega)),
        ih (m / 10) (by omega)]
      omega

theorem parseNatDigits_natDigits (m : Nat) : parseNatDigits (natDigits m) = m :=
  parseNatDigits_natDigitsAux (m + 1) m (Nat.lt_succ_self m)

/-! ### takeWhile/dropWhile helper lemmas -/

theorem takeWhile_all_true (p : Char → Bool) (l : Str) (h : ∀ c ∈ l, p c = true) :
    l.takeWhile p = l := by
  induction l with
  | nil => rfl
  | cons c t ih =>
    rw [List.takeWhile_cons, if_pos (h c (List.mem_cons_self c t))]
    rw [ih (fun d hd => h d (List.mem_cons_of_mem c hd))]

theorem dropWhile_all_true (p : Char → Bool) (l : Str) (h : ∀ c ∈ l, p c = true) :
    l.dropWhile p = [] := by
  induction l with
  | nil => rfl
  | cons c t ih =>
    rw [List.dropWhile_cons, if_pos (h c (List.mem_cons_self c t))]
    exact ih (fun d hd => h d (List.mem_cons_of_mem c hd))

theorem takeWhile_append_false (p : Char → Bool) (xs : Str) (b : Char) (ys : Str)
    (hb : p b = false) : (xs ++ b :: ys).takeWhile p = xs.takeWhile p := by
  induction xs with
  | nil => simp [List.takeWhile_cons, hb]
  | cons x xt ih =>
    rw [List.cons_append, List.takeWhile_cons, List.takeWhile_cons]
    by_cases hx : p x
    · rw [if_pos hx, if_pos hx, ih]
    · rw [if_neg (by simp [hx]), if_neg (by simp [hx])]

theorem dropWhile_append_false (p : Char → Bool) (xs : Str) (b : Char) (ys : Str)
    (hb : p b = false) : (xs ++ b :: ys).dropWhile p = xs.dropWhile p ++ b :: ys := by
  induction xs with
  | nil => simp [List.dropWhile_cons, hb]
  | cons x xt ih =>
    rw [List.cons_append, List.dropWhile_cons, List.dropWhile_cons]
    by_cases hx : p x
    · rw [if_pos hx, if_pos hx, ih]
    · rw [if_neg (by simp [hx]), if_neg (by simp [hx]), List.cons_append]

theorem munch1_exact (p : Char → Bool) (g : Str) (b : Char) (ys : Str)
    (hg : ∀ c ∈ g, p c = true) (hgn : g ≠ []) (hb : p b = false) :
    munch1 p (g ++ b :: ys) = some (g, b :: ys) := by
  unfold munch1
  rw [takeWhile_append_false p g b ys hb, dropWhile_append_false p g b ys hb,
    takeWhile_all_true p g hg, dropWhile_all_true p g hg]
  simp [hgn]

/-! ### Value of `float()` on the formatted decimal -/

theorem pyFloat_natDecimalStr (n : Nat) :
    pyFloatOfDigitDot (natDecimalStr n) = .ok ((n : Rat) / 10) := by
  unfold pyFloatOfDigitDot natDecimalStr
  have hdot : ((fun c : Char => decide (c ≠ '.')) '.') = false := by decide
  have hdigits : ∀ c ∈ natDigits (n / 10), ((fun c : Char => decide (c ≠ '.')) c) = true := by
    intro c hc
    have hd := natDigits_all_digits (n / 10) c hc
    simp only [isDigitCh, Bool.and_eq_true, decide_eq_true_eq] at hd
    simp only [decide_eq_true_eq]
    intro he
    subst he
    have h46 : ('.' : Char).toNat = 46 := rfl
    omega
  have h1 : (natDigits (n / 10) ++ '.' :: [digitCh (n % 10)]).takeWhile
      (fun c : Char => decide (c ≠ '.')) = natDigits (n / 10) := by
    rw [takeWhile_append_false _ _ _ _ hdot, takeWhile_all_true _ _ hdigits]
  have h2 : (natDigits (n / 10) ++ '.' :: [digitCh (n % 10)]).dropWhile
      (fun c : Char => decide (c ≠ '.')) = '.' :: [digitCh (n % 10)] := by
    rw [dropWhile_append_false _ _ _ _ hdot, dropWhile_all_true _ _ hdigits]
    rfl
  have hne : (natDigits (n / 10) ++ '.' :: [digitCh (n % 10)]).isEmpty = false := by
    cases hcase : natDigits (n / 10) with
    | nil => rfl
    | cons a t => rfl
  rw [hne]
  simp only [Bool.false_eq_true, if_false, h1, h2]
  have hnodot : ([digitCh (n % 10)].contains '.') = false := by
    have hne2 : digitCh (n % 10) ≠ '.' := digitCh_ne_dot _ (Nat.mod_lt _ (by omega))
    simp [List.contains, hne2, Ne.symm hne2]
  rw [hnodot]
  simp only [Bool.false_eq_true, if_false]
  have hfp : ([digitCh (n % 10)].isEmpty) = false := rfl
  rw [hfp, Bool.and_false]
  simp only [Bool.false_eq_true, if_false]
  have hval : parseNatDigits [digitCh (n % 10)] = n % 10 := by
    show parseNatDigits ([] ++ [digitCh (n % 10)]) = n % 10
    rw [parseNatDigits_append_digit, digitCh_toNat _ (Nat.mod_lt _ (by omega))]
    simp [parseNatDigits]
  rw [parseNatDigits_natDigits, hval]
  congr 1
  have hmod : (10 : Rat) * ((n / 10 : Nat) : Rat) + ((n % 10 : Nat) : Rat) = (n : Rat) := by
    exact_mod_cast congrArg (fun m : Nat => (m : Rat)) (Nat.div_add_mod n 10)
  have hpow : ((10 : Rat) ^ ([digitCh (n % 10)].length)) = 10 := by norm_num
  rw [hpow]
  field_simp
  linarith [hmod]

/-! ## Text spans and the coordinate marker encoder -/

/-- A text span as produced by `PDFService.extract_text_and_positions`
(`origin`/`font_size` are irrelevant to reconciliation and omitted). -/
structure Span where
  page : Nat
  bbox : Rat × Rat × Rat × Rat
  text : Str
deriving DecidableEq

/-- The inline marker `[text]<@page:x0,y0,x1,y1>` built for one span in
`PDFExtractor._create_coordinate_embedded_text`, coordinates formatted with
`:.1f`. -/
def coordMarker (pos : Span) : Str :=
  '[' :: (pos.text ++ (']' :: '<' :: '@' :: (natDigits pos.page ++ (':' ::
    (fmt1 pos.bbox.1 ++ (',' :: (fmt1 pos.bbox.2.1 ++ (',' ::
    (fmt1 pos.bbox.2.2.1 ++ (',' :: (fmt1 pos.bbox.2.2.2 ++ ['>'])))))))))))

/-! ### A boundary character that no pattern step accepts cannot be crossed
by a match, so a match of the coordinate pattern inside `xs ++ ']' :: ys`
that starts in `xs` lies entirely within `xs`. -/

def stepBlockedB (b : Char) : PatStep → Bool
  | .lit c => c != b
  | .cls p => !(p b)

theorem runPat_lit_self (c : Char) (ps : List PatStep) (l : Str) :
    runPat (.lit c :: ps) (c :: l) = runPat ps l := by
  simp [runPat, litCh]

theorem runPat_cls_step (p : Char → Bool) (ps : List PatStep) (g : Str) (b : Char) (ys : Str)
    (hg : ∀ c ∈ g, p c = true) (hgn : g ≠ []) (hb : p b = false) :
    runPat (.cls p :: ps) (g ++ b :: ys) =
      match runPat ps (b :: ys) with
      | none => none
      | some (gs, rest) => some (g :: gs, rest) := by
  show (match munch1 p (g ++ b :: ys) with
        | none => none
        | some (g0, r) =>
          match runPat ps r with
          | none => none
          | some (gs, rest) => some (g0 :: gs, rest)) = _
  rw [munch1_exact p g b ys hg hgn hb]

theorem runPat_append_boundary (b : Char) (ps : List PatStep)
    (hps : ps.all (stepBlockedB b) = true) :
    ∀ xs ys gs r, runPat ps (xs ++ b :: ys) = some (gs, r) →
      ∃ r0, runPat ps xs = some (gs, r0) ∧ r = r0 ++ b :: ys := by
  induction ps with
  | nil =>
    intro xs ys gs r h
    simp [runPat] at h
    exact ⟨xs, by simp [runPat, h.1], by rw [← h.2]⟩
  | cons st ps ih =>
    rw [List.all_cons, Bool.and_eq_true] at hps
    intro xs ys gs r h
    cases st with
    | lit c =>
      have hcb : ¬ (c = b) := by
        have h1 := hps.1
        simp [stepBlockedB] at h1
        exact h1
      cases xs with
      | nil =>
        rw [List.nil_append] at h
        simp only [runPat, litCh] at h
        rw [if_neg (fun he : b = c => hcb he.symm)] at h
        simp at h
      | cons x xt =>
        rw [List.cons_append] at h
        by_cases hxc : x = c
        · rw [hxc, runPat_lit_self] at h
          obtain ⟨r0, hr0, hre⟩ := ih hps.2 xt ys gs r h
          refine ⟨r0, ?_, hre⟩
          rw [hxc, runPat_lit_self]
          exact hr0
        · simp [runPat, litCh, hxc] at h
    | cls p =>
      have hpb : p b = false := by
        have h1 := hps.1
        simpa [stepBlockedB] using h1
      have hm : munch1 p (xs ++ b :: ys) =
          if (xs.takeWhile p).isEmpty then none
          else some (xs.takeWhile p, xs.dropWhile p ++ b :: ys) := by
        unfold munch1
        rw [takeWhile_append_false _ _ _ _ hpb, dropWhile_append_false _ _ _ _ hpb]
      by_cases hemp : (xs.takeWhile p).isEmpty
      · rw [if_pos hemp] at hm
        simp [runPat, hm] at h
      · rw [if_neg hemp] at hm
        have hexp : runPat (.cls p :: ps) (xs ++ b :: ys) =
            match runPat ps (xs.dropWhile p ++ b :: ys) with
            | none => none
            | some (gs0, rest) => some (xs.takeWhile p :: gs0, rest) := by
          show (match munch1 p (xs ++ b :: ys) with
                | none => none
                | some (g0, r) =>
                  match runPat ps r with
                  | none => none
                  | some (gs, rest) => some (g0 :: gs, rest)) = _
          rw [hm]
        rw [hexp] at h
        cases hrun : runPat ps (xs.dropWhile p ++ b :: ys) with
        | none => rw [hrun] at h; simp at h
        | some v =>
          obtain ⟨gs0, rest⟩ := v
          rw [hrun] at h
          simp at h
          obtain ⟨hgs, hr⟩ := h
          obtain ⟨r0, hr0, hre⟩ := ih hps.2 (xs.dropWhile p) ys gs0 rest hrun
          refine ⟨r0, ?_, by rw [← hr, hre]⟩
          have hmx : munch1 p xs = some (xs.takeWhile p, xs.dropWhile p) := by
            unfold munch1
            simp [hemp]
          show (match munch1 p xs with
                | none => none
                | some (g0, r) =>
                  match runPat ps r with
                  | none => none
                  | some (gs, rest) => some (g0 :: gs, rest)) = _
          rw [hmx]
          show (match runPat ps (xs.dropWhile p) with
                | none => none
                | some (gs1, rest1) => some (xs.takeWhile p :: gs1, rest1)) = some (gs, r0)
          rw [hr0, ← hgs]

theorem searchPat_append_of_none (b : Char) (ps : List PatStep)
    (hps : ps.all (stepBlockedB b) = true) :
    ∀ xs, searchPat ps xs = none →
      ∀ ys, searchPat ps (xs ++ b :: ys) = searchPat ps (b :: ys) := by
  intro xs
  induction xs with
  | nil => intro _ ys; rfl
  | cons x xt ih =>
    intro hxs ys
    have h1 : runPat ps (x :: xt) = none := by
      cases hr : runPat ps (x :: xt) with
      | none => rfl
      | some v => obtain ⟨gs, r⟩ := v; simp [searchPat, hr] at hxs
    have h2 : searchPat ps xt = none := by
      simpa [searchPat, h1] using hxs
    rw [List.cons_append]
    have h3 : runPat ps (x :: (xt ++ b :: ys)) = none := by
      cases hr : runPat ps (x :: (xt ++ b :: ys)) with
      | none => rfl
      | some v =>
        obtain ⟨gs, r⟩ := v
        obtain ⟨r0, hr0, _⟩ := runPat_append_boundary b ps hps (x :: xt) ys gs r
          (by rw [List.cons_append]; exact hr)
        rw [hr0] at h1
        simp at h1
    simp only [searchPat, h3]
    exact ih h2 ys

/-! ### The encoder's marker tail matches the decoder pattern exactly -/

theorem rhes_nonneg (q : Rat) (h : 0 ≤ q) : 0 ≤ roundHalfEvenScaled q := by
  have hx : (0 : Rat) ≤ 10 * q := by positivity
  have hf : 0 ≤ (10 * q).floor := Rat.le_floor.2 (by exact_mod_cast hx)
  show 0 ≤ (if 10 * q - ((10 * q).floor : Rat) < 1/2 then (10 * q).floor
    else if 1/2 < 10 * q - ((10 * q).floor : Rat) then (10 * q).floor + 1
    else if (10 * q).floor % 2 = 0 then (10 * q).floor else (10 * q).floor + 1)
  split_ifs <;> omega

theorem fmt1_nonneg_eq (q : Rat) (h : 0 ≤ q) :
    fmt1 q = natDecimalStr (roundHalfEvenScaled q).natAbs := by
  unfold fmt1
  rw [if_neg (not_lt.2 h)]

theorem pyFloat_fmt1 (q : Rat) (h : 0 ≤ q) :
    pyFloatOfDigitDot (fmt1 q) = .ok (round1 q) := by
  rw [fmt1_nonneg_eq q h, pyFloat_natDecimalStr]
  have h0 : 0 ≤ roundHalfEvenScaled q := rhes_nonneg q h
  have hcast : (((roundHalfEvenScaled q).natAbs : Nat) : Rat) =
      ((roundHalfEvenScaled q : Int) : Rat) := by
    rw [Int.cast_natAbs]
    exact congrArg (fun z : Int => (z : Rat)) (abs_of_nonneg h0)
  unfold round1
  rw [hcast]

theorem natDecimalStr_all_digitDot (n : Nat) :
    ∀ c ∈ natDecimalStr n, isDigitDot c = true := by
  intro c hc
  unfold natDecimalStr at hc
  rcases List.mem_append.1 hc with h | h
  · unfold isDigitDot
    rw [natDigits_all_digits _ c h]
    rfl
  · simp at h
    rcases h with h | h
    · subst h; rfl
    · subst h
      unfold isDigitDot
      rw [isDigitCh_digitCh _ (Nat.mod_lt _ (by omega))]
      rfl

theorem natDecimalStr_ne_nil (n : Nat) : natDecimalStr n ≠ [] := by
  unfold natDecimalStr
  simp

theorem fmt1_all_digitDot (q : Rat) (h : 0 ≤ q) :
    ∀ c ∈ fmt1 q, isDigitDot c = true := by
  rw [fmt1_nonneg_eq q h]
  exact natDecimalStr_all_digitDot _

theorem fmt1_ne_nil (q : Rat) (h : 0 ≤ q) : fmt1 q ≠ [] := by
  rw [fmt1_nonneg_eq q h]
  exact natDecimalStr_ne_nil _

theorem natDigits_all_digitDot (m : Nat) : ∀ c ∈ natDigits m, isDigitCh c = true :=
  natDigits_all_digits m

theorem runPat_coordPat_tail (page : Nat) (qa qb qc qd : Rat)
    (ha : 0 ≤ qa) (hb : 0 ≤ qb) (hc : 0 ≤ qc) (hd : 0 ≤ qd) :
    runPat coordPat ('<' :: '@' :: (natDigits page ++ (':' ::
      (fmt1 qa ++ (',' :: (fmt1 qb ++ (',' :: (fmt1 qc ++ (',' ::
      (fmt1 qd ++ ['>'])))))))))) =
    some ([natDigits page, fmt1 qa, fmt1 qb, fmt1 qc, fmt1 qd], []) := by
  have hcolon : isDigitCh ':' = false := rfl
  have hcomma : isDigitDot ',' = false := rfl
  show runPat (.lit '<' :: .lit '@' :: .cls isDigitCh :: .lit ':' :: .cls isDigitDot ::
    .lit ',' :: .cls isDigitDot :: .lit ',' :: .cls isDigitDot :: .lit ',' ::
    .cls isDigitDot :: [.lit '>']) _ = _
  rw [runPat_lit_self, runPat_lit_self]
  rw [runPat_cls_step isDigitCh _ _ _ _ (natDigits_all_digits page) (natDigits_ne_nil page) hcolon]
  rw [runPat_lit_self]
  rw [runPat_cls_step isDigitDot _ _ _ _ (fmt1_all_digitDot qa ha) (fmt1_ne_nil qa ha) hcomma]
  rw [runPat_lit_self]
  rw [runPat_cls_step isDigitDot _ _ _ _ (fmt1_all_digitDot qb hb) (fmt1_ne_nil qb hb) hcomma]
  rw [runPat_lit_self]
  rw [runPat_cls_step isDigitDot _ _ _ _ (fmt1_all_digitDot qc hc) (fmt1_ne_nil qc hc) hcomma]
  rw [runPat_lit_self]
  rw [show fmt1 qd ++ ['>'] = fmt1 qd ++ '>' :: [] from rfl]
  rw [runPat_cls_step isDigitDot _ _ _ _ (fmt1_all_digitDot qd hd) (fmt1_ne_nil qd hd)
    (show isDigitDot '>' = false from rfl)]
  rw [runPat_lit_self]
  rfl

theorem searchPat_coordMarker (s : Span)
    (hnomark : searchPat coordPat s.text = none)
    (ha : 0 ≤ s.bbox.1) (hb : 0 ≤ s.bbox.2.1) (hc : 0 ≤ s.bbox.2.2.1) (hd : 0 ≤ s.bbox.2.2.2) :
    searchPat coordPat (coordMarker s) =
      some [natDigits s.page, fmt1 s.bbox.1, fmt1 s.bbox.2.1,
            fmt1 s.bbox.2.2.1, fmt1 s.bbox.2.2.2] := by
  have hblocked : coordPat.all (stepBlockedB ']') = true := by decide
  have hx : searchPat coordPat ('[' :: s.text) = none := by
    have h0 : runPat coordPat ('[' :: s.text) = none := by
      simp [coordPat, runPat, litCh]
    simp [searchPat, h0, hnomark]
  have hshape : coordMarker s = ('[' :: s.text) ++ ']' :: ('<' :: '@' ::
      (natDigits s.page ++ (':' :: (fmt1 s.bbox.1 ++ (',' :: (fmt1 s.bbox.2.1 ++
      (',' :: (fmt1 s.bbox.2.2.1 ++ (',' :: (fmt1 s.bbox.2.2.2 ++ ['>'])))))))))) := by
    simp [coordMarker]
  rw [hshape,
    searchPat_append_of_none ']' coordPat hblocked ('[' :: s.text) hx _]
  have htail := runPat_coordPat_tail s.page s.bbox.1 s.bbox.2.1 s.bbox.2.2.1 s.bbox.2.2.2
    ha hb hc hd
  have h1 : runPat coordPat (']' :: ('<' :: '@' :: (natDigits s.page ++ (':' ::
      (fmt1 s.bbox.1 ++ (',' :: (fmt1 s.bbox.2.1 ++ (',' :: (fmt1 s.bbox.2.2.1 ++
      (',' :: (fmt1 s.bbox.2.2.2 ++ ['>']))))))))))) = none := by
    simp [coordPat, runPat, litCh]
  simp only [searchPat, h1]
  simp only [searchPat, htail]

/-- Claim C3 (amended): for every span with non-blank text whose text
contains no substring matching the coordinate pattern, and whose four bbox
coordinates are non-negative, decoding the marker emitted by the coordinate
encoder recovers exactly the span's page and its bbox rounded to one
decimal place.  (A negative coordinate makes the decoder regex fail — see
the counterexample — and a marker-shaped substring inside the text is
mis-decoded, the fidelity gap the spec itself notes in §9.) -/
theorem c3_marker_round_trip (s : Span)
    (_hblank : pyStrip s.text ≠ [])
    (hnomark : searchPat coordPat s.text = none)
    (ha : 0 ≤ s.bbox.1) (hb : 0 ≤ s.bbox.2.1)
    (hc : 0 ≤ s.bbox.2.2.1) (hd : 0 ≤ s.bbox.2.2.2) :
    parseCoordinateFromResponse (coordMarker s) =
      .ok (some (s.page, (round1 s.bbox.1, round1 s.bbox.2.1,
        round1 s.bbox.2.2.1, round1 s.bbox.2.2.2))) := by
  unfold parseCoordinateFromResponse
  rw [searchPat_coordMarker s hnomark ha hb hc hd]
  simp only [pyFloat_fmt1 _ ha, pyFloat_fmt1 _ hb, pyFloat_fmt1 _ hc, pyFloat_fmt1 _ hd,
    parseNatDigits_natDigits]

def c3NegSpan : Span := ⟨0, (-1, 2, 3, 4), "t".toList⟩

/-- Claim C3 counterexample: for a span with bbox `(-1.0, 2.0, 3.0, 4.0)`
the encoder emits `[t]<@0:-1.0,2.0,3.0,4.0>`, whose `-` the decoder class
`[\d.]` rejects, so decoding yields no coordinates instead of the page and
rounded bbox the claim requires. -/
theorem c3_negative_bbox_counterexample :
    parseCoordinateFromResponse (coordMarker c3NegSpan) ≠
      .ok (some (c3NegSpan.page, (round1 (-1), round1 2, round1 3, round1 4))) := by
  with_unfolding_all decide

def c3OkSpan : Span := ⟨2, (3/2, 0, 7, 456/100), "Invoice".toList⟩

theorem c3_round_trip_witness :
    pyStrip c3OkSpan.text ≠ [] ∧ searchPat coordPat c3OkSpan.text = none ∧
    parseCoordinateFromResponse (coordMarker c3OkSpan) =
      .ok (some (c3OkSpan.page, (round1 c3OkSpan.bbox.1, round1 c3OkSpan.bbox.2.1,
        round1 c3OkSpan.bbox.2.2.1, round1 c3OkSpan.bbox.2.2.2))) :=
  ⟨by decide, by decide,
    c3_marker_round_trip c3OkSpan (by decide) (by decide)
      (by with_unfolding_all decide) (by with_unfolding_all decide)
      (by with_unfolding_all decide) (by with_unfolding_all decide)⟩

/-- Claim C7 counterexample: cleaning is not idempotent; on `"[[x]]"` the
first pass yields `"[x]"` and the second pass strips again to `"x"`. -/
theorem c7_double_bracket_counterexample :
    cleanValueFromCoordinates (cleanValueFromCoordinates "[[x]]".toList) ≠
      cleanValueFromCoordinates "[[x]]".toList := by decide

/-- Claim C7 (amended): cleaning is idempotent on every value whose cleaned
form contains no coordinate-marker occurrence and is not itself enclosed in
square brackets; in general a second pass can strip a further bracket pair
(see the counterexample). -/
theorem c7_clean_idempotent_on_settled (v : Str)
    (h1 : removeCoordMarkers (cleanValueFromCoordinates v) = cleanValueFromCoordinates v)
    (h2 : stripEnclosingBrackets (cleanValueFromCoordinates v) = cleanValueFromCoordinates v) :
    cleanValueFromCoordinates (cleanValueFromCoordinates v) = cleanValueFromCoordinates v := by
  have hs : pyStrip (cleanValueFromCoordinates v) = cleanValueFromCoordinates v :=
    pyStrip_idem _
  show pyStrip (stripEnclosingBrackets (pyStrip (removeCoordMarkers
    (cleanValueFromCoordinates v)))) = cleanValueFromCoordinates v
  rw [h1, hs, h2, hs]

theorem c7_clean_witness :
    removeCoordMarkers (cleanValueFromCoordinates "abc".toList) =
      cleanValueFromCoordinates "abc".toList ∧
    stripEnclosingBrackets (cleanValueFromCoordinates "abc".toList) =
      cleanValueFromCoordinates "abc".toList ∧
    cleanValueFromCoordinates (cleanValueFromCoordinates "abc".toList) =
      cleanValueFromCoordinates "abc".toList :=
  ⟨by decide, by decide, c7_clean_idempotent_on_settled _ (by decide) (by decide)⟩

/-! ## Data model (`core/models.py`) -/

structure FieldTemplate where
  key : Str
  value : Str := []
deriving DecidableEq

structure ExtractionTemplate where
  document_type : Str
  fields : List FieldTemplate
deriving DecidableEq

structure ExtractedFieldGPT where
  key : Str
  value : Str
deriving DecidableEq

structure ExtractedField where
  key : Str
  value : Str
  page : Option Nat := none
  bbox : Option (Rat × Rat × Rat × Rat) := none
deriving DecidableEq

structure ProcessingResult where
  document_type : Str
  extracted_fields : List ExtractedField
  text_content : Str
deriving DecidableEq

/-- Model of Python `pathlib.Path(p).stem`: the final path component with
its last non-leading, non-trailing dot-suffix removed. -/
def pathStem (p : Str) : Str :=
  let nm := (p.reverse.takeWhile (fun c => c ≠ '/')).reverse
  let extLen := (nm.reverse.takeWhile (fun c => c ≠ '.')).length
  let i := nm.length - 1 - extLen
  if 0 < i ∧ 0 < extLen then nm.take i else nm

/-! ## Filename-field handling in `PDFExtractor` -/

/-- Insertion-ordered key set (models the keys of a Python `dict` built by
repeated assignment). -/
def dedupKeys (l : List Str) : List Str :=
  l.foldl (fun acc k => if k ∈ acc then acc else acc ++ [k]) []

/-- Model of `_extract_filename_fields`: each filename-classified field key
of the template maps to the input file's stem. -/
def extractFilenameFields (template : ExtractionTemplate) (inputPdfPath : Str) :
    List (Str × Str) :=
  (dedupKeys ((template.fields.filter (fun f => isFilenameField f.key)).map
    (fun f => f.key))).map (fun k => (k, pathStem inputPdfPath))

/-- Model of `_filter_non_filename_fields`. -/
def filterNonFilenameFields (template : ExtractionTemplate) : ExtractionTemplate :=
  ⟨template.document_type, template.fields.filter (fun f => !(isFilenameField f.key))⟩

/-- Model of `_filter_metadata_for_non_filename_fields` (empty or
all-filtered metadata collapses to `None`, as falsy dicts do in Python). -/
def filterMetadataForNonFilenameFields (metadata : Option (List (Str × Str))) :
    Option (List (Str × Str)) :=
  match metadata with
  | none => none
  | some m =>
    if m.isEmpty then none
    else
      let filtered := m.filter (fun kv => !(isFilenameField kv.1))
      if filtered.isEmpty then none else some filtered

/-! ## `_create_coordinate_embedded_text` -/

def insertSortedNat (n : Nat) : List Nat → List Nat
  | [] => [n]
  | m :: t => if n ≤ m then n :: m :: t else m :: insertSortedNat n t

def sortNat (l : List Nat) : List Nat := l.foldr insertSortedNat []

def dedupNat (l : List Nat) : List Nat :=
  l.foldl (fun acc k => if k ∈ acc then acc else acc ++ [k]) []

/-- `sorted(pages_text.keys())`: the distinct pages of the spans in
ascending order (every span registers its page, blank or not). -/
def pagesOf (positions : List Span) : List Nat :=
  sortNat (dedupNat (positions.map (fun s => s.page)))

/-- Model of Python `sep.join(parts)`. -/
def joinSep (sep : Str) : List Str → Str
  | [] => []
  | [x] => x
  | x :: y :: rest => x ++ sep ++ joinSep sep (y :: rest)

/-- Model of `_create_coordinate_embedded_text`: banner lines, per-page
header plus space-joined markers of the non-blank spans of that page, end
banner, and the original text appended for reference. -/
def createCoordinateEmbeddedText (textContent : Str) (positions : List Span) : Str :=
  let pageLines := fun (p : Nat) =>
    ["--- PAGE ".toList ++ natDigits (p + 1) ++ " ---".toList,
     joinSep [' '] (((positions.filter (fun s => s.page = p)).filter
       (fun s => !(pyStrip s.text).isEmpty)).map coordMarker),
     []]
  let parts :=
    ["=== DOCUMENT WITH COORDINATE MARKERS ===".toList,
     "Format: [text]<@page:x1,y1,x2,y2>".toList,
     []] ++
    ((pagesOf positions).flatMap pageLines ++
     ["=== END DOCUMENT ===".toList, [],
      "=== ORIGINAL TEXT (for reference) ===".toList, textContent])
  joinSep ['\n'] parts

/-! ## Field resolution in `process_pdf` (extractor.py lines 259–331) -/

/-- Resolution of one LLM-returned field: branch 2 (embedded marker),
branch 3 (substring scan over the spans, only outside validation mode with
spans available), branch 4 (no position).  An `.error` models the
`ValueError` that `float()` would raise on a malformed matched group. -/
def resolveGptField (validationMode : Bool) (positions : List Span)
    (field : ExtractedFieldGPT) : Except Unit ExtractedField :=
  match parseCoordinateFromResponse field.value with
  | .error e => .error e
  | .ok (some (page, bbox)) =>
    .ok ⟨field.key, cleanValueFromCoordinates field.value, some page, some bbox⟩
  | .ok none =>
    if !validationMode && !positions.isEmpty then
      match positions.find? (fun pos => containsSub field.value pos.text) with
      | some pos => .ok ⟨field.key, field.value, some pos.page, some pos.bbox⟩
      | none => .ok ⟨field.key, field.value, none, none⟩
    else .ok ⟨field.key, field.value, none, none⟩

/-- Model of the field assembly of `process_pdf`: the LLM fields resolved
in order (GPT not called at all when the filtered template is empty),
then the filename fields appended without coordinates. -/
def processExtractedFields (validationMode : Bool) (template : ExtractionTemplate)
    (inputPdfPath : Str) (gptFields : List ExtractedFieldGPT) (positions : List Span) :
    Except Unit (List ExtractedField) :=
  match (if (filterNonFilenameFields template).fields.isEmpty then
      (pure [] : Except Unit (List ExtractedField))
    else gptFields.mapM (resolveGptField validationMode positions)) with
  | .error e => .error e
  | .ok gptOut =>
    .ok (gptOut ++ (extractFilenameFields template inputPdfPath).map
      (fun kv => (⟨kv.1, kv.2, none, none⟩ : ExtractedField)))

/-- Model of `process_pdf` result construction (lines 333–338): the
coordinate-embedded text becomes `text_content` when not in validation
mode and non-empty, the plain extracted text otherwise. -/
def processPdfResult (validationMode : Bool) (template : ExtractionTemplate)
    (inputPdfPath : Str) (gptFields : List ExtractedFieldGPT)
    (textContent : Str) (positions : List Span) : Except Unit ProcessingResult :=
  let embedded :=
    if validationMode then textContent
    else createCoordinateEmbeddedText textContent positions
  match processExtractedFields validationMode template inputPdfPath gptFields positions with
  | .error e => .error e
  | .ok fieldsOut =>
    .ok ⟨template.document_type, fieldsOut,
      if !validationMode && !embedded.isEmpty then embedded else textContent⟩

/-! ## `_save_results` JSON payload -/

structure OutputData where
  document_type : Str
  fields : List (Str × Str × Option Nat × Option (List Rat))
  text_content : Str
deriving DecidableEq

/-- The `output_data` dictionary serialized by `_save_results` (bbox as a
4-element list or null). -/
def saveResultsData (r : ProcessingResult) : OutputData :=
  ⟨r.document_type,
   r.extracted_fields.map (fun f =>
     (f.key, f.value, f.page,
      match f.bbox with
      | some b => some [b.1, b.2.1, b.2.2.1, b.2.2.2]
      | none => none)),
   r.text_content⟩

/-- Claim C8: `_is_filename_field` returns true iff the lowercased key
contains one of the five fixed substrings, and is consequently
case-insensitive: it gives the same answer on `key` and `key.upper()`. -/
theorem c8_filename_field_case_insensitive (key : Str) :
    (isFilenameField key =
      (containsSub "filename".toList (pyLower key) ||
       containsSub "file_name".toList (pyLower key) ||
       containsSub "file name".toList (pyLower key) ||
       containsSub "document_name".toList (pyLower key) ||
       containsSub "document name".toList (pyLower key))) ∧
    isFilenameField key = isFilenameField (pyUpper key) := by
  constructor
  · rfl
  · unfold isFilenameField
    rw [pyLower_pyUpper]

/-! ## Claim C2: validation mode and coordinate markers -/

/-- Claim C2 (amended): in validation mode every LLM field whose value
contains no coordinate marker is emitted with `page=None, bbox=None`
(branch 4).  A value that does contain a marker still takes branch 2 even
in validation mode, because `process_pdf` runs `_parse_coordinate_from_response`
on every value unconditionally — see the counterexample. -/
theorem c2_validation_untagged_forces_null_position (positions : List Span)
    (field : ExtractedFieldGPT)
    (h : parseCoordinateFromResponse field.value = .ok none) :
    resolveGptField true positions field = .ok ⟨field.key, field.value, none, none⟩ := by
  unfold resolveGptField
  rw [h]
  rfl

def c2Template : ExtractionTemplate := ⟨"Invoice".toList, [⟨"Amount".toList, []⟩]⟩

def c2Field : ExtractedFieldGPT := ⟨"Amount".toList, "[42]<@1:5.0,6.0,7.0,8.0>".toList⟩

/-- Claim C2 counterexample: with `validation_mode=True`, an LLM value
carrying an embedded coordinate marker is emitted with the parsed page and
bbox (branch 2), not with `page=None, bbox=None` as the claim states. -/
theorem c2_validation_marker_counterexample :
    processExtractedFields true c2Template "doc.pdf".toList [c2Field] [] =
      .ok [⟨"Amount".toList, "42".toList, some 1, some (5, 6, 7, 8)⟩] := by
  with_unfolding_all decide

def c2PlainField : ExtractedFieldGPT := ⟨"Number".toList, "INV-001".toList⟩

theorem c2_validation_witness :
    parseCoordinateFromResponse c2PlainField.value = .ok none ∧
    resolveGptField true [] c2PlainField =
      .ok ⟨c2PlainField.key, c2PlainField.value, none, none⟩ :=
  ⟨by decide, c2_validation_untagged_forces_null_position [] c2PlainField (by decide)⟩

/-! ## Claim C5: first-match substring scan -/

theorem find?_first {α : Type} (p : α → Bool) :
    ∀ (l : List α) (i : Nat) (hi : i < l.length),
      (∀ j (hj : j < l.length), j < i → p (l.get ⟨j, hj⟩) = false) →
      p (l.get ⟨i, hi⟩) = true →
      l.find? p = some (l.get ⟨i, hi⟩) := by
  intro l
  induction l with
  | nil => intro i hi; simp at hi
  | cons a t ih =>
    intro i hi hprev hcur
    cases i with
    | zero =>
      have ha : p a = true := hcur
      rw [List.find?_cons, ha]
      rfl
    | succ i0 =>
      have ha : p a = false := hprev 0 (by omega) (by omega)
      rw [List.find?_cons, ha]
      exact ih i0 (by simpa using hi)
        (fun j hj hji => hprev (j + 1) (by omega) (by omega)) hcur

/-- Claim C5: for an untagged LLM value, resolution outside validation mode
is a first-match linear scan over the spans in order: if every span before
index `i` fails case-sensitive substring containment and span `i`
succeeds, the emitted page/bbox are span `i`'s; in particular on spans
`["Total: 100", "100"]` with value `"100"` the match is span 0, not the
exact-match span 1. -/
theorem c5_first_match_scan :
    (∀ (field : ExtractedFieldGPT) (positions : List Span) (i : Nat) (hi : i < positions.length),
      parseCoordinateFromResponse field.value = .ok none →
      (∀ j (hj : j < positions.length), j < i →
        containsSub field.value (positions.get ⟨j, hj⟩).text = false) →
      containsSub field.value (positions.get ⟨i, hi⟩).text = true →
      resolveGptField false positions field =
        .ok ⟨field.key, field.value, some (positions.get ⟨i, hi⟩).page,
          some (positions.get ⟨i, hi⟩).bbox⟩) ∧
    resolveGptField false
      [⟨0, (1, 2, 3, 4), "Total: 100".toList⟩, ⟨1, (5, 6, 7, 8), "100".toList⟩]
      ⟨"Amount2".toList, "100".toList⟩ =
      .ok ⟨"Amount2".toList, "100".toList, some 0, some (1, 2, 3, 4)⟩ := by
  constructor
  · intro field positions i hi hp hprev hcur
    unfold resolveGptField
    rw [hp]
    have hne : positions.isEmpty = false := by
      cases positions with
      | nil => simp at hi
      | cons a t => rfl
    rw [hne]
    have hfind := find?_first (fun pos => containsSub field.value pos.text)
      positions i hi hprev hcur
    simp only [Bool.not_false, Bool.not_true, Bool.and_true, if_true, hfind]
  · with_unfolding_all decide

theorem c5_first_match_witness :
    parseCoordinateFromResponse "INV-7".toList = .ok none ∧
    resolveGptField false [⟨3, (1, 1, 2, 2), "No: INV-7".toList⟩]
      ⟨"No".toList, "INV-7".toList⟩ =
      .ok ⟨"No".toList, "INV-7".toList, some 3, some (1, 1, 2, 2)⟩ :=
  ⟨by decide,
    c5_first_match_scan.1 ⟨"No".toList, "INV-7".toList⟩
      [⟨3, (1, 1, 2, 2), "No: INV-7".toList⟩] 0 (by decide) (by decide)
      (fun j hj hji => by omega) (by decide)⟩

/-! ## Claim C9: filename fields -/

theorem mem_dedupKeys_iff (l : List Str) (k : Str) : k ∈ dedupKeys l ↔ k ∈ l := by
  have hgen : ∀ (l : List Str) (acc : List Str),
      k ∈ l.foldl (fun acc k0 => if k0 ∈ acc then acc else acc ++ [k0]) acc ↔
        k ∈ acc ∨ k ∈ l := by
    intro l
    induction l with
    | nil => intro acc; simp
    | cons a t ih =>
      intro acc
      rw [List.foldl_cons, ih]
      by_cases ha : a ∈ acc
      · rw [if_pos ha]
        constructor
        · intro h
          rcases h with h | h
          · exact Or.inl h
          · exact Or.inr (List.mem_cons_of_mem a h)
        · intro h
          rcases h with h | h
          · exact Or.inl h
          · rcases List.mem_cons.1 h with h | h
            · exact Or.inl (h ▸ ha)
            · exact Or.inr h
      · rw [if_neg ha]
        constructor
        · intro h
          rcases h with h | h
          · rcases List.mem_append.1 h with h | h
            · exact Or.inl h
            · simp at h
              exact Or.inr (by rw [h]; exact List.mem_cons_self a t)
          · exact Or.inr (List.mem_cons_of_mem a h)
        · intro h
          rcases h with h | h
          · exact Or.inl (List.mem_append.2 (Or.inl h))
          · rcases List.mem_cons.1 h with h | h
            · exact Or.inl (List.mem_append.2 (Or.inr (by simp [h])))
            · exact Or.inr h
  rw [dedupKeys, hgen]
  simp

theorem extractFilenameFields_keys (template : ExtractionTemplate) (inputPdfPath : Str) :
    ∀ kv ∈ extractFilenameFields template inputPdfPath, isFilenameField kv.1 = true := by
  intro kv hkv
  unfold extractFilenameFields at hkv
  obtain ⟨k, hk, hkv⟩ := List.mem_map.1 hkv
  rw [mem_dedupKeys_iff] at hk
  obtain ⟨f, hf, hfk⟩ := List.mem_map.1 hk
  have hprop := (List.mem_filter.1 hf).2
  rw [← hkv]
  simpa [hfk] using hprop

/-- Claim C9: every filename-classified schema field is emitted with the
input file's stem and `page=None, bbox=None`, is excluded from the template
sent to the LLM, and is excluded from the alternative-names and
extraction-rules maps sent to the LLM. -/
theorem c9_filename_fields_direct (validationMode : Bool) (template : ExtractionTemplate)
    (inputPdfPath : Str) (gptFields : List ExtractedFieldGPT) (positions : List Span)
    (out : List ExtractedField) (k : Str)
    (hout : processExtractedFields validationMode template inputPdfPath gptFields positions
      = .ok out)
    (hk : isFilenameField k = true) :
    (k ∈ template.fields.map (fun f => f.key) →
      (⟨k, pathStem inputPdfPath, none, none⟩ : ExtractedField) ∈ out) ∧
    k ∉ (filterNonFilenameFields template).fields.map (fun f => f.key) ∧
    (∀ md : Option (List (Str × Str)), ∀ v : Str,
      (k, v) ∉ ((filterMetadataForNonFilenameFields md).getD [])) := by
  refine ⟨?_, ?_, ?_⟩
  · intro hmem
    unfold processExtractedFields at hout
    cases hg : (if (filterNonFilenameFields template).fields.isEmpty then
        (pure [] : Except Unit (List ExtractedField))
      else gptFields.mapM (resolveGptField validationMode positions)) with
    | error e =>
      rw [hg] at hout
      simp at hout
    | ok gptOut =>
      rw [hg] at hout
      have hout2 : gptOut ++ (extractFilenameFields template inputPdfPath).map
          (fun kv => (⟨kv.1, kv.2, none, none⟩ : ExtractedField)) = out := by
        simpa using hout
      rw [← hout2]
      apply List.mem_append.2
      right
      apply List.mem_map.2
      refine ⟨(k, pathStem inputPdfPath), ?_, rfl⟩
      unfold extractFilenameFields
      apply List.mem_map.2
      refine ⟨k, ?_, rfl⟩
      rw [mem_dedupKeys_iff]
      obtain ⟨f, hf, hfk⟩ := List.mem_map.1 hmem
      apply List.mem_map.2
      refine ⟨f, List.mem_filter.2 ⟨hf, by simp [hfk, hk]⟩, hfk⟩
  · intro hmem
    obtain ⟨f, hf, hfk⟩ := List.mem_map.1 hmem
    have hprop := (List.mem_filter.1 hf).2
    rw [hfk] at hprop
    simp [hk] at hprop
  · intro md v hmem
    cases md with
    | none => simp [filterMetadataForNonFilenameFields] at hmem
    | some m =>
      simp only [filterMetadataForNonFilenameFields] at hmem
      by_cases hm : m.isEmpty
      · rw [if_pos hm] at hmem
        simp at hmem
      · rw [if_neg hm] at hmem
        by_cases hfe : (m.filter (fun kv => !(isFilenameField kv.1))).isEmpty
        · rw [if_pos hfe] at hmem
          simp at hmem
        · rw [if_neg hfe] at hmem
          have hprop := (List.mem_filter.1 hmem).2
          simp [hk] at hprop

def c9Template : ExtractionTemplate :=
  ⟨"Invoice".toList, [⟨"File Name".toList, []⟩, ⟨"Total".toList, []⟩]⟩

def c9Out : List ExtractedField :=
  [⟨"File Name".toList, "invoice_042".toList, none, none⟩]

theorem c9_filename_witness :
    processExtractedFields true c9Template "invoice_042.pdf".toList [] [] = .ok c9Out ∧
    isFilenameField "File Name".toList = true ∧
    (("File Name".toList ∈ c9Template.fields.map (fun f => f.key) →
      (⟨"File Name".toList, pathStem "invoice_042.pdf".toList, none, none⟩ : ExtractedField)
        ∈ c9Out) ∧
     "File Name".toList ∉ (filterNonFilenameFields c9Template).fields.map (fun f => f.key) ∧
     (∀ md : Option (List (Str × Str)), ∀ v : Str,
       ("File Name".toList, v) ∉ ((filterMetadataForNonFilenameFields md).getD []))) :=
  ⟨by decide, by decide,
    c9_filename_fields_direct true c9Template "invoice_042.pdf".toList [] [] c9Out
      "File Name".toList (by decide) (by decide)⟩

/-! ## Claim C1: reconciliation counts and page/bbox pairing -/

theorem resolveGptField_props (validationMode : Bool) (positions : List Span)
    (field : ExtractedFieldGPT) (e : ExtractedField)
    (h : resolveGptField validationMode positions field = .ok e) :
    e.key = field.key ∧ e.page.isSome = e.bbox.isSome := by
  unfold resolveGptField at h
  split at h
  · exact absurd h (by simp)
  · rw [← Except.ok.inj h]
    exact ⟨rfl, rfl⟩
  · split at h
    · split at h
      · rw [← Except.ok.inj h]
        exact ⟨rfl, rfl⟩
      · rw [← Except.ok.inj h]
        exact ⟨rfl, rfl⟩
    · rw [← Except.ok.inj h]
      exact ⟨rfl, rfl⟩

theorem mapM_resolve_forall (validationMode : Bool) (positions : List Span) :
    ∀ (fs : List ExtractedFieldGPT) (out : List ExtractedField),
      fs.mapM (resolveGptField validationMode positions) = .ok out →
      List.Forall₂ (fun f e => resolveGptField validationMode positions f = .ok e) fs out := by
  intro fs
  induction fs with
  | nil =>
    intro out h
    have h2 : ([] : List ExtractedField) = out := Except.ok.inj h
    rw [← h2]
    exact List.Forall₂.nil
  | cons f ft ih =>
    intro out h
    rw [List.mapM_cons] at h
    cases he : resolveGptField validationMode positions f with
    | error u => rw [he] at h; simp [Bind.bind, Except.bind] at h
    | ok e =>
      rw [he] at h
      cases hr : ft.mapM (resolveGptField validationMode positions) with
      | error u =>
        rw [hr] at h
        simp [Bind.bind, Except.bind] at h
      | ok rest =>
        rw [hr] at h
        simp [Bind.bind, Except.bind, pure, Except.pure] at h
        rw [← h]
        exact List.Forall₂.cons he (ih rest hr)

theorem countP_key_forall (validationMode : Bool) (positions : List Span) (k : Str) :
    ∀ (fs : List ExtractedFieldGPT) (out : List ExtractedField),
      List.Forall₂ (fun f e => resolveGptField validationMode positions f = .ok e) fs out →
      out.countP (fun e => e.key == k) = fs.countP (fun f => f.key == k) := by
  intro fs out h
  induction h with
  | nil => rfl
  | cons hfe htail ih =>
    rw [List.countP_cons, List.countP_cons, ih]
    congr 1
    rw [(resolveGptField_props _ _ _ _ hfe).1]

theorem pairing_forall (validationMode : Bool) (positions : List Span) :
    ∀ (fs : List ExtractedFieldGPT) (out : List ExtractedField),
      List.Forall₂ (fun f e => resolveGptField validationMode positions f = .ok e) fs out →
      ∀ e ∈ out, e.page.isSome = e.bbox.isSome := by
  intro fs out h
  induction h with
  | nil => intro e he; simp at he
  | cons hfe htail ih =>
    intro e he
    rcases List.mem_cons.1 he with he | he
    · rw [he]
      exact (resolveGptField_props _ _ _ _ hfe).2
    · exact ih e he

/-- Claim C1 (amended): whenever `process_pdf`'s field assembly succeeds,
(1) every output entry has `page` and `bbox` both populated or both `None`;
and (2) provided the LLM was called at all (the filtered template is
non-empty), the output contains exactly as many entries with a given
non-filename key as the LLM response does — in particular exactly one when
the LLM returned that key exactly once.  The output can hold two entries
for a key the LLM returned twice, so the unconditional "exactly one" of
the claim fails (see the counterexample). -/
theorem c1_reconciliation_counts_and_pairing (validationMode : Bool)
    (template : ExtractionTemplate) (inputPdfPath : Str)
    (gptFields : List ExtractedFieldGPT) (positions : List Span)
    (out : List ExtractedField)
    (hout : processExtractedFields validationMode template inputPdfPath gptFields positions
      = .ok out) :
    (∀ e ∈ out, e.page.isSome = e.bbox.isSome) ∧
    ((filterNonFilenameFields template).fields.isEmpty = false →
      ∀ k : Str, isFilenameField k = false →
        out.countP (fun e => e.key == k) = gptFields.countP (fun f => f.key == k)) := by
  unfold processExtractedFields at hout
  by_cases hemp : (filterNonFilenameFields template).fields.isEmpty
  · rw [if_pos hemp] at hout
    have hout2 : ((extractFilenameFields template inputPdfPath).map
        (fun kv => (⟨kv.1, kv.2, none, none⟩ : ExtractedField))) = out := by
      simpa [pure, Except.pure] using hout
    constructor
    · intro e he
      rw [← hout2] at he
      obtain ⟨kv, _, hkv⟩ := List.mem_map.1 he
      rw [← hkv]
      rfl
    · intro habs
      rw [hemp] at habs
      simp at habs
  · rw [if_neg hemp] at hout
    cases hm : gptFields.mapM (resolveGptField validationMode positions) with
    | error u => rw [hm] at hout; simp at hout
    | ok gptOut =>
      rw [hm] at hout
      have hout2 : gptOut ++ ((extractFilenameFields template inputPdfPath).map
          (fun kv => (⟨kv.1, kv.2, none, none⟩ : ExtractedField))) = out := by
        simpa using hout
      have hforall := mapM_resolve_forall validationMode positions gptFields gptOut hm
      constructor
      · intro e he
        rw [← hout2] at he
        rcases List.mem_append.1 he with he | he
        · exact pairing_forall validationMode positions gptFields gptOut hforall e he
        · obtain ⟨kv, _, hkv⟩ := List.mem_map.1 he
          rw [← hkv]
          rfl
      · intro _ k hk
        rw [← hout2, List.countP_append,
          countP_key_forall validationMode positions k gptFields gptOut hforall]
        have hzero : (((extractFilenameFields template inputPdfPath).map
            (fun kv => (⟨kv.1, kv.2, none, none⟩ : ExtractedField))).countP
              (fun e => e.key == k)) = 0 := by
          rw [List.countP_eq_zero]
          intro e he
          obtain ⟨kv, hkv, hkve⟩ := List.mem_map.1 he
          have hfn := extractFilenameFields_keys template inputPdfPath kv hkv
          rw [← hkve]
          simp only [beq_iff_eq]
          intro hke
          rw [hke] at hfn
          rw [hfn] at hk
          simp at hk
        rw [hzero]
        omega
  
def c1Template : ExtractionTemplate := ⟨"T".toList, [⟨"a".toList, []⟩]⟩

/-- Claim C1 counterexample: when the LLM response repeats the key `"a"`,
the output holds two entries with that key, not exactly one. -/
theorem c1_duplicate_key_counterexample :
    processExtractedFields true c1Template "x.pdf".toList
      [⟨"a".toList, "v".toList⟩, ⟨"a".toList, "v".toList⟩] [] =
      .ok [⟨"a".toList, "v".toList, none, none⟩, ⟨"a".toList, "v".toList, none, none⟩] ∧
    ([(⟨"a".toList, "v".toList, none, none⟩ : ExtractedField),
      ⟨"a".toList, "v".toList, none, none⟩].countP
        (fun e => e.key == "a".toList)) ≠ 1 := by
  exact ⟨by decide, by decide⟩

def c1WOut : List ExtractedField := [⟨"a".toList, "v".toList, none, none⟩]

theorem c1_reconciliation_witness :
    processExtractedFields true c1Template "x.pdf".toList [⟨"a".toList, "v".toList⟩] [] =
      .ok c1WOut ∧
    ((∀ e ∈ c1WOut, e.page.isSome = e.bbox.isSome) ∧
     ((filterNonFilenameFields c1Template).fields.isEmpty = false →
       ∀ k : Str, isFilenameField k = false →
         c1WOut.countP (fun e => e.key == k) =
           ([⟨"a".toList, "v".toList⟩] : List ExtractedFieldGPT).countP
             (fun f => f.key == k))) :=
  ⟨by decide,
    c1_reconciliation_counts_and_pairing true c1Template "x.pdf".toList
      [⟨"a".toList, "v".toList⟩] [] c1WOut (by decide)⟩

/-! ## Claim C10: text_content selection -/

theorem createCoordinateEmbeddedText_ne_nil (textContent : Str) (positions : List Span) :
    createCoordinateEmbeddedText textContent positions ≠ [] := by
  intro h
  have hshape : createCoordinateEmbeddedText textContent positions =
      "=== DOCUMENT WITH COORDINATE MARKERS ===".toList ++ (['\n'] ++
        joinSep ['\n'] ("Format: [text]<@page:x1,y1,x2,y2>".toList :: [] ::
          ((pagesOf positions).flatMap (fun p =>
            ["--- PAGE ".toList ++ natDigits (p + 1) ++ " ---".toList,
             joinSep [' '] (((positions.filter (fun s => s.page = p)).filter
               (fun s => !(pyStrip s.text).isEmpty)).map coordMarker),
             []]) ++
           ["=== END DOCUMENT ===".toList, [],
            "=== ORIGINAL TEXT (for reference) ===".toList, textContent]))) := rfl
  rw [hshape] at h
  rw [List.append_eq_nil] at h
  exact absurd h.1 (by decide)

/-- Claim C10: when `validation_mode` is false the `text_content` stored in
the Processing Result and serialized by `_save_results` is the
coordinate-embedded annotated text (always non-empty, so the truthiness
guard never falls back); when `validation_mode` is true the plain extracted
text is stored and serialized. -/
theorem c10_text_content_selection (template : ExtractionTemplate) (inputPdfPath : Str)
    (gptFields : List ExtractedFieldGPT) (textContent : Str) (positions : List Span) :
    (∀ out, processPdfResult false template inputPdfPath gptFields textContent positions
        = .ok out →
      out.text_content = createCoordinateEmbeddedText textContent positions ∧
      (saveResultsData out).text_content = createCoordinateEmbeddedText textContent positions) ∧
    (∀ out, processPdfResult true template inputPdfPath gptFields textContent positions
        = .ok out →
      out.text_content = textContent ∧
      (saveResultsData out).text_content = textContent) := by
  constructor
  · intro out hout
    unfold processPdfResult at hout
    cases hp : processExtractedFields false template inputPdfPath gptFields positions with
    | error e => rw [hp] at hout; simp at hout
    | ok fieldsOut =>
      rw [hp] at hout
      have hne : (createCoordinateEmbeddedText textContent positions).isEmpty = false := by
        cases hc : createCoordinateEmbeddedText textContent positions with
        | nil => exact absurd hc (createCoordinateEmbeddedText_ne_nil textContent positions)
        | cons a t => rfl
      have hkey : (!false && !(createCoordinateEmbeddedText textContent positions).isEmpty)
          = true := by rw [hne]; rfl
      have hout3 : (Except.ok (⟨template.document_type, fieldsOut,
          createCoordinateEmbeddedText textContent positions⟩ : ProcessingResult)
          : Except Unit ProcessingResult) = Except.ok out := by
        rw [← hout]
        show Except.ok _ = Except.ok (⟨template.document_type, fieldsOut,
          if (!false && !(createCoordinateEmbeddedText textContent positions).isEmpty) = true
          then createCoordinateEmbeddedText textContent positions
          else textContent⟩ : ProcessingResult)
        rw [if_pos hkey]
      rw [← Except.ok.inj hout3]
      exact ⟨rfl, rfl⟩
  · intro out hout
    unfold processPdfResult at hout
    cases hp : processExtractedFields true template inputPdfPath gptFields positions with
    | error e => rw [hp] at hout; simp at hout
    | ok fieldsOut =>
      rw [hp] at hout
      have hout2 : (⟨template.document_type, fieldsOut, textContent⟩ : ProcessingResult)
          = out := Except.ok.inj hout
      rw [← hout2]
      exact ⟨rfl, rfl⟩

def c10Template : ExtractionTemplate := ⟨"T".toList, [⟨"b".toList, []⟩]⟩

def c10Out : ProcessingResult :=
  ⟨"T".toList, [], createCoordinateEmbeddedText "hello".toList []⟩

theorem c10_text_content_witness :
    processPdfResult false c10Template "x.pdf".toList [] "hello".toList [] = .ok c10Out ∧
    (c10Out.text_content = createCoordinateEmbeddedText "hello".toList [] ∧
     (saveResultsData c10Out).text_content = createCoordinateEmbeddedText "hello".toList []) :=
  ⟨by decide,
    (c10_text_content_selection c10Template "x.pdf".toList [] "hello".toList []).1 c10Out
      (by decide)⟩

/-! ## Claim C6: `SharePointSchemaBuilder.build_extraction_schema` -/

/-- Model of `build_extraction_schema` applied to the worksheet grid
(`worksheet_data['values']`) returned by the tabular source: raises
`ValueError` when fewer than 3 rows are present; otherwise row 0 holds
alternative-name cells, row 1 extraction-rule cells and row 2 the header
keys.  A column becomes a field iff its header cell is non-empty and
non-blank; metadata cells aligned with a non-empty header are collected,
skipping the label columns. -/
def buildExtractionSchema (values : List (List Str)) :
    Except Unit (ExtractionTemplate × List (Str × Str) × List (Str × Str)) :=
  if values.length < 3 then .error ()
  else
    let alternativeNamesRow := values.getD 0 []
    let extractionRulesRow := values.getD 1 []
    let headersRow := values.getD 2 []
    let altNamesCol := alternativeNamesRow.findIdx?
      (fun c => c == "Alternative Column Names".toList)
    let rulesCol := extractionRulesRow.findIdx?
      (fun c => c == "Column Extraction Rules".toList)
    let fields := headersRow.enum.filterMap (fun ih =>
      if (pyStrip ih.2).isEmpty then none
      else some (⟨pyStrip ih.2, []⟩ : FieldTemplate))
    let alternativeNames := headersRow.enum.filterMap (fun ih =>
      if (pyStrip ih.2).isEmpty then none
      else if ih.1 < alternativeNamesRow.length ∧
          ¬(alternativeNamesRow.getD ih.1 []).isEmpty ∧ altNamesCol ≠ some ih.1 then
        some (pyStrip ih.2, alternativeNamesRow.getD ih.1 [])
      else none)
    let extractionRules := headersRow.enum.filterMap (fun ih =>
      if (pyStrip ih.2).isEmpty then none
      else if ih.1 < extractionRulesRow.length ∧
          ¬(extractionRulesRow.getD ih.1 []).isEmpty ∧ rulesCol ≠ some ih.1 then
        some (pyStrip ih.2, extractionRulesRow.getD ih.1 [])
      else none)
    .ok (⟨"Financial Statement".toList, fields⟩, alternativeNames, extractionRules)

instance : DecidableEq (ExtractionTemplate × List (Str × Str) × List (Str × Str)) :=
  instDecidableEqProd

theorem enum_filterMap_snd {α β : Type} (f : α → Option β) (l : List α) :
    l.enum.filterMap (fun ih => f ih.2) = l.filterMap f := by
  have hgen : ∀ (n : Nat) (l : List α),
      (List.enumFrom n l).filterMap (fun ih => f ih.2) = l.filterMap f := by
    intro n l
    induction l generalizing n with
    | nil => rfl
    | cons a t ih =>
      rw [List.enumFrom, List.filterMap_cons, List.filterMap_cons]
      cases f a with
      | none => simp only; exact ih (n + 1)
      | some b => simp only; rw [ih (n + 1)]
  exact hgen 0 l

/-- Claim C6 (amended): `build_extraction_schema` fails iff the source
returns fewer than 3 rows.  When the header row has no non-empty cells it
does NOT fail — it returns a schema whose field list is empty (see the
counterexample) — and the returned fields are exactly the columns with
non-empty (stripped) header cells. -/
theorem c6_schema_error_iff_too_few_rows (values : List (List Str)) :
    ((buildExtractionSchema values = .error ()) ↔ values.length < 3) ∧
    (∀ t an er, buildExtractionSchema values = .ok (t, an, er) →
      t.fields = (values.getD 2 []).filterMap (fun h =>
        if (pyStrip h).isEmpty then none
        else some (⟨pyStrip h, []⟩ : FieldTemplate))) := by
  constructor
  · constructor
    · intro h
      by_contra hlen
      unfold buildExtractionSchema at h
      rw [if_neg hlen] at h
      simp at h
    · intro hlen
      unfold buildExtractionSchema
      rw [if_pos hlen]
  · intro t an er h
    unfold buildExtractionSchema at h
    by_cases hlen : values.length < 3
    · rw [if_pos hlen] at h
      simp at h
    · rw [if_neg hlen] at h
      have ht := Except.ok.inj h
      have ht2 := congrArg Prod.fst ht
      simp only at ht2
      rw [← ht2]
      show (values.getD 2 []).enum.filterMap (fun ih =>
        if (pyStrip ih.2).isEmpty then none
        else some (⟨pyStrip ih.2, []⟩ : FieldTemplate)) = _
      exact enum_filterMap_snd (fun h => if (pyStrip h).isEmpty then none
        else some (⟨pyStrip h, []⟩ : FieldTemplate)) (values.getD 2 [])

def c6EmptyGrid : List (List Str) := [[], [], ["".toList]]

/-- Claim C6 counterexample: a grid with 3 rows whose header row has no
non-empty cells does not produce a schema error; it yields a schema with
an empty field list. -/
theorem c6_empty_headers_counterexample :
    buildExtractionSchema c6EmptyGrid =
      .ok (⟨"Financial Statement".toList, []⟩, [], []) := by decide

def c6Grid : List (List Str) :=
  [["x".toList], ["y".toList], ["  Header ".toList, "".toList]]

def c6Tpl : ExtractionTemplate := ⟨"Financial Statement".toList, [⟨"Header".toList, []⟩]⟩

def c6An : List (Str × Str) := [("Header".toList, "x".toList)]

def c6Er : List (Str × Str) := [("Header".toList, "y".toList)]

theorem c6_schema_witness :
    buildExtractionSchema c6Grid = .ok (c6Tpl, c6An, c6Er) ∧
    c6Tpl.fields =
      (c6Grid.getD 2 []).filterMap (fun h =>
        if (pyStrip h).isEmpty then none
        else some (⟨pyStrip h, []⟩ : FieldTemplate)) :=
  ⟨by decide,
    (c6_schema_error_iff_too_few_rows c6Grid).2 c6Tpl c6An c6Er (by decide)⟩

/-! ## Claim C4: defensive response parsing in `GPTService.analyze_document` -/

inductive PyJson where
  | null
  | bool (b : Bool)
  | num (lexeme : Str)
  | str (s : Str)
  | arr (items : List PyJson)
  | obj (members : List (Str × PyJson))

/-- JSON whitespace accepted between tokens by `json.loads`. -/
def isJsonWs (c : Char) : Bool := c = ' ' || c = '\t' || c = '\n' || c = '\r'

def skipWs (l : Str) : Str := l.dropWhile isJsonWs

def hexVal (c : Char) : Option Nat :=
  if 48 ≤ c.toNat ∧ c.toNat ≤ 57 then some (c.toNat - 48)
  else if 97 ≤ c.toNat ∧ c.toNat ≤ 102 then some (c.toNat - 87)
  else if 65 ≤ c.toNat ∧ c.toNat ≤ 70 then some (c.toNat - 55)
  else none

def jsonEscape (e : Char) : Option Char :=
  if e = '"' then some '"'
  else if e = '\\' then some '\\'
  else if e = '/' then some '/'
  else if e = 'b' then some '\x08'
  else if e = 'f' then some '\x0c'
  else if e = 'n' then some '\n'
  else if e = 'r' then some '\r'
  else if e = 't' then some '\t'
  else none

/-- Scan a JSON string body after the opening quote, decoding escapes,
rejecting raw control characters and invalid escapes (strict mode). -/
def scanJStr : Str → Option (Str × Str)
  | [] => none
  | '"' :: r => some ([], r)
  | '\\' :: e :: r =>
    if e = 'u' then
      match r with
      | h1 :: h2 :: h3 :: h4 :: r2 =>
        match hexVal h1, hexVal h2, hexVal h3, hexVal h4 with
        | some a, some b, some c, some d =>
          match scanJStr r2 with
          | some (s, rest) => some (Char.ofNat (((a * 16 + b) * 16 + c) * 16 + d) :: s, rest)
          | none => none
        | _, _, _, _ => none
      | _ => none
    else
      match jsonEscape e with
      | some c =>
        match scanJStr r with
        | some (s, rest) => some (c :: s, rest)
        | none => none
      | none => none
  | c :: r =>
    if c.toNat < 32 then none
    else
      match scanJStr r with
      | some (s, rest) => some (c :: s, rest)
      | none => none

/-- Scan an optional fraction and exponent after the integer part of a JSON
number (the greedy `NUMBER_RE` of the Python `json` module). -/
def scanFracExp (acc : Str) (l : Str) : Option (Str × Str) :=
  let fr :=
    match l with
    | '.' :: t =>
      let ds := t.takeWhile isDigitCh
      if ds.isEmpty then (acc, l)
      else (acc ++ '.' :: ds, t.dropWhile isDigitCh)
    | _ => (acc, l)
  match fr.2 with
  | e :: t =>
    if e = 'e' ∨ e = 'E' then
      match t with
      | s :: t2 =>
        if s = '+' ∨ s = '-' then
          let ds := t2.takeWhile isDigitCh
          if ds.isEmpty then some fr
          else some (fr.1 ++ e :: s :: ds, t2.dropWhile isDigitCh)
        else
          let ds := t.takeWhile isDigitCh
          if ds.isEmpty then some fr
          else some (fr.1 ++ e :: ds, t.dropWhile isDigitCh)
      | [] => some fr
    else some fr
  | [] => some fr

/-- Scan a JSON number lexeme (`-?(0|[1-9]\d*)` plus optional fraction and
exponent). -/
def scanJNum (l : Str) : Option (Str × Str) :=
  let sr :=
    match l with
    | '-' :: t => ((['-'] : Str), t)
    | _ => (([] : Str), l)
  match sr.2 with
  | [] => none
  | c :: t =>
    if c = '0' then scanFracExp (sr.1 ++ ['0']) t
    else if isDigitCh c then
      scanFracExp (sr.1 ++ c :: t.takeWhile isDigitCh) (t.dropWhile isDigitCh)
    else none

def dropLit : Str → Str → Option Str
  | [], l => some l
  | _ :: _, [] => none
  | c :: cs, a :: l => if a = c then dropLit cs l else none

inductive JRes where
  | v (x : PyJson)
  | items (xs : List PyJson)
  | members (ms : List (Str × PyJson))

/-- Recursive-descent JSON parser (fuel-indexed so it is structurally
recursive and kernel-evaluable).  Jobs: 0 = one value, 1 = array items
right after `[`, 3 = array items with at least one item required,
2 = object members right after `\x7b`, 4 = members with at least one member
required.  Trailing commas are rejected, and the non-standard constants
`NaN`, `Infinity` and `-Infinity` are accepted (as float lexemes), exactly
as `json.loads` does by default. -/
def jparse : Nat → Nat → Str → Option (JRes × Str)
  | 0, _, _ => none
  | fuel + 1, job, l =>
    if job = 0 then
      match skipWs l with
      | [] => none
      | c :: rest =>
        if c = '\x7b' then
          match jparse fuel 2 rest with
          | some (.members ms, r) => some (.v (.obj ms), r)
          | _ => none
        else if c = '[' then
          match jparse fuel 1 rest with
          | some (.items xs, r) => some (.v (.arr xs), r)
          | _ => none
        else if c = '"' then
          match scanJStr rest with
          | some (s, r) => some (.v (.str s), r)
          | none => none
        else if c = 't' then
          match dropLit "rue".toList rest with
          | some r => some (.v (.bool true), r)
          | none => none
        else if c = 'f' then
          match dropLit "alse".toList rest with
          | some r => some (.v (.bool false), r)
          | none => none
        else if c = 'n' then
          match dropLit "ull".toList rest with
          | some r => some (.v .null, r)
          | none => none
        else if c = 'N' then
          match dropLit "aN".toList rest with
          | some r => some (.v (.num "NaN".toList), r)
          | none => none
        else if c = 'I' then
          match dropLit "nfinity".toList rest with
          | some r => some (.v (.num "Infinity".toList), r)
          | none => none
        else if c = '-' then
          match dropLit "Infinity".toList rest with
          | some r => some (.v (.num "-Infinity".toList), r)
          | none =>
            match scanJNum (c :: rest) with
            | some (s, r) => some (.v (.num s), r)
            | none => none
        else if isDigitCh c then
          match scanJNum (c :: rest) with
          | some (s, r) => some (.v (.num s), r)
          | none => none
        else none
    else if job = 1 then
      match skipWs l with
      | ']' :: r => some (.items [], r)
      | _ => jparse fuel 3 l
    else if job = 3 then
      match jparse fuel 0 l with
      | some (.v x, r) =>
        (match skipWs r with
         | ',' :: r2 =>
           match jparse fuel 3 r2 with
           | some (.items xs, r3) => some (.items (x :: xs), r3)
           | _ => none
         | ']' :: r2 => some (.items [x], r2)
         | _ => none)
      | _ => none
    else if job = 2 then
      match skipWs l with
      | '\x7d' :: r => some (.members [], r)
      | _ => jparse fuel 4 l
    else if job = 4 then
      match skipWs l with
      | '"' :: r =>
        match scanJStr r with
        | some (k, r2) =>
          (match skipWs r2 with
           | ':' :: r3 =>
             match jparse fuel 0 r3 with
             | some (.v x, r4) =>
               (match skipWs r4 with
                | ',' :: r5 =>
                  match jparse fuel 4 r5 with
                  | some (.members ms, r6) => some (.members ((k, x) :: ms), r6)
                  | _ => none
                | '\x7d' :: r5 => some (.members [(k, x)], r5)
                | _ => none)
             | _ => none
           | _ => none)
        | none => none
      | _ => none
    else none

/-- Model of `json.loads` with its default settings: parse one value
(including the `NaN`/`Infinity`/`-Infinity` constants) and require only
whitespace to follow ("Extra data" otherwise). -/
def jsonLoads (l : Str) : Except Unit PyJson :=
  match jparse (4 * l.length + 8) 0 l with
  | some (.v x, r) => if (skipWs r).isEmpty then .ok x else .error ()
  | _ => .error ()

/-- Model of `re.search(r'(\{.*\})', content, re.DOTALL)`: with greedy
DOTALL `.*`, the group spans from the first opening brace that precedes
the final closing brace up to that final closing brace. -/
def regexExtractBraces (l : Str) : Option Str :=
  match l.dropWhile (fun c => c ≠ '\x7b') with
  | [] => none
  | c :: t =>
    if t.contains '\x7d' then
      some (c :: (t.reverse.dropWhile (fun d => d ≠ '\x7d')).reverse)
    else none

/-- Python `dict.get` on the dict built from parsed JSON members (later
duplicate keys overwrite earlier ones). -/
def pyDictGet (kvs : List (Str × PyJson)) (k : Str) (dflt : PyJson) : PyJson :=
  match kvs.reverse.find? (fun kv => kv.1 == k) with
  | some kv => kv.2
  | none => dflt

def pyDictGetOpt (kvs : List (Str × PyJson)) (k : Str) : Option PyJson :=
  (kvs.reverse.find? (fun kv => kv.1 == k)).map (fun kv => kv.2)

/-- Python `for field in x`: lists iterate their items, strings their
characters, dicts their keys; numbers, booleans and `None` raise
`TypeError`. -/
def jsonIter : PyJson → Except Unit (List PyJson)
  | .arr xs => .ok xs
  | .str s => .ok (s.map (fun c => PyJson.str [c]))
  | .obj kvs => .ok ((dedupKeys (kvs.map (fun kv => kv.1))).map (fun k => PyJson.str k))
  | _ => .error ()

/-- Model of `ExtractedFieldGPT(**field)`: the field must be an object with
string `key` and `value` members; any failure is caught by the
`except Exception: continue` and the field is dropped. -/
def validateGptField (f : PyJson) : Option ExtractedFieldGPT :=
  match f with
  | .obj kvs =>
    match pyDictGetOpt kvs "key".toList, pyDictGetOpt kvs "value".toList with
    | some (.str k), some (.str v) => some ⟨k, v⟩
    | _, _ => none
  | _ => none

/-- Model of the response-processing part of `GPTService.analyze_document`
(lines 158–197): direct `json.loads`; on failure a regex extracts the first
`\x7b...\x7d` span and re-parses it, degrading to `\x7b"fields": []\x7d` on
any error; then `.get('fields', [])` (an `AttributeError` on a non-dict
response — modelled as `.error`), iteration (a `TypeError` on a
non-iterable member — `.error`), and per-field validation with individual
failures dropped. -/
def analyzeResponseFields (content : Str) : Except Unit (List ExtractedFieldGPT) :=
  let responseData : Except Unit PyJson :=
    match jsonLoads content with
    | .ok v => .ok v
    | .error _ =>
      match regexExtractBraces content with
      | some s =>
        match jsonLoads s with
        | .ok v => .ok v
        | .error _ => .ok (.obj [("fields".toList, .arr [])])
      | none => .ok (.obj [("fields".toList, .arr [])])
  match responseData with
  | .error e => .error e
  | .ok (.obj kvs) =>
    match jsonIter (pyDictGet kvs "fields".toList (.arr [])) with
    | .error e => .error e
    | .ok items => .ok (items.filterMap validateGptField)
  | .ok _ => .error ()

def isErrE {α : Type} (e : Except Unit α) : Bool :=
  match e with
  | .error _ => true
  | .ok _ => false

def isOkE {α : Type} (e : Except Unit α) : Bool :=
  match e with
  | .ok _ => true
  | .error _ => false

/-- The `fields` member of a parsed response object is iterable. -/
def fieldsIterOk (v : PyJson) : Bool :=
  match v with
  | .obj kvs => isOkE (jsonIter (pyDictGet kvs "fields".toList (.arr [])))
  | _ => false

/-- The regex-fallback path cannot raise for this content. -/
def regexPathOk (content : Str) : Bool :=
  match regexExtractBraces content with
  | none => true
  | some s =>
    match jsonLoads s with
    | .error _ => true
    | .ok v => fieldsIterOk v

theorem dropWhile_head_prop (p : Char → Bool) (l : Str) (c : Char) (t : Str)
    (h : l.dropWhile p = c :: t) : p c = false := by
  induction l with
  | nil => simp at h
  | cons a l2 ih =>
    rw [List.dropWhile_cons] at h
    by_cases ha : p a
    · rw [if_pos ha] at h
      exact ih h
    · rw [if_neg ha] at h
      rw [← (List.cons.inj h).1]
      simpa using ha

theorem regexExtract_head (l s : Str) (h : regexExtractBraces l = some s) :
    ∃ t, s = '\x7b' :: t := by
  unfold regexExtractBraces at h
  cases hd : l.dropWhile (fun c => c ≠ '\x7b') with
  | nil => rw [hd] at h; simp at h
  | cons c t =>
    rw [hd] at h
    have hc : c = '\x7b' := by
      have := dropWhile_head_prop _ l c t hd
      simpa using this
    have h2 : (if t.contains '\x7d' = true then
        some (c :: (t.reverse.dropWhile (fun d => d ≠ '\x7d')).reverse)
      else none) = some s := h
    by_cases hcon : t.contains '\x7d'
    · rw [if_pos hcon] at h2
      refine ⟨(t.reverse.dropWhile (fun d => d ≠ '\x7d')).reverse, ?_⟩
      rw [← Option.some.inj h2, hc]
    · rw [if_neg hcon] at h2
      simp at h2

theorem jparse_brace_obj (fuel : Nat) (t : Str) (x : PyJson) (r : Str)
    (h : jparse fuel 0 ('\x7b' :: t) = some (.v x, r)) : ∃ ms, x = .obj ms := by
  cases fuel with
  | zero => simp [jparse] at h
  | succ fuel =>
    rw [show jparse (fuel + 1) 0 ('\x7b' :: t) =
        (match jparse fuel 2 t with
         | some (.members ms, r) => some (.v (.obj ms), r)
         | _ => none) from rfl] at h
    cases hr : jparse fuel 2 t with
    | none => rw [hr] at h; simp at h
    | some v0 =>
      obtain ⟨jr, r2⟩ := v0
      rw [hr] at h
      cases jr with
      | v y => simp at h
      | items xs => simp at h
      | members ms =>
        refine ⟨ms, ?_⟩
        simp at h
        exact h.1.symm

theorem jsonLoads_obj_of_brace (s : Str) (t : Str) (hs : s = '\x7b' :: t)
    (v : PyJson) (h : jsonLoads s = .ok v) : ∃ ms, v = .obj ms := by
  unfold jsonLoads at h
  cases hp : jparse (4 * s.length + 8) 0 s with
  | none => rw [hp] at h; simp at h
  | some v0 =>
    obtain ⟨jr, r⟩ := v0
    rw [hp] at h
    cases jr with
    | items xs => simp at h
    | members ms => simp at h
    | v x =>
      have h2 : (if (skipWs r).isEmpty = true then (Except.ok x : Except Unit PyJson)
          else Except.error ()) = Except.ok v := h
      by_cases hws : (skipWs r).isEmpty
      · rw [if_pos hws] at h2
        have hx : x = v := Except.ok.inj h2
        rw [hs] at hp
        obtain ⟨ms, hms⟩ := jparse_brace_obj _ t x r hp
        exact ⟨ms, by rw [← hx, hms]⟩
      · rw [if_neg hws] at h2
        simp at h2

/-- Claim C4 (amended): for every completion rejected by direct JSON
parsing, response parsing never raises — the regex extracts the first
`\x7b...\x7d` span and re-parses it, and when that fails or no braces are
present the field list degrades to empty rather than raising (the regex
path additionally needs the re-parsed object's `fields` member to be
iterable, the `regexPathOk` hypothesis).  A completion that IS valid JSON
with a non-object top level raises `AttributeError` — see the
counterexample — so the claim's unconditional "never raises" is false. -/
theorem c4_defensive_parse_no_raise :
    (∀ content : Str, isErrE (jsonLoads content) = true → regexPathOk content = true →
      isOkE (analyzeResponseFields content) = true) ∧
    (∀ content : Str, isErrE (jsonLoads content) = true → regexExtractBraces content = none →
      analyzeResponseFields content = .ok []) := by
  constructor
  · intro content h1 h2
    have herr : jsonLoads content = .error () := by
      cases hj : jsonLoads content with
      | error u => rfl
      | ok v => rw [hj] at h1; simp [isErrE] at h1
    unfold analyzeResponseFields
    rw [herr]
    unfold regexPathOk at h2
    cases hre : regexExtractBraces content with
    | none => rfl
    | some s =>
      rw [hre] at h2
      show isOkE (match (match jsonLoads s with
        | Except.ok v => Except.ok v
        | Except.error _ => Except.ok (PyJson.obj [("fields".toList, PyJson.arr [])])) with
        | Except.error e => Except.error e
        | Except.ok (.obj kvs) =>
          (match jsonIter (pyDictGet kvs "fields".toList (.arr [])) with
           | .error e => .error e
           | .ok items => .ok (items.filterMap validateGptField))
        | Except.ok _ => Except.error ()) = true
      cases hjs : jsonLoads s with
      | error u => rfl
      | ok v =>
        have h3 : (match jsonLoads s with
          | Except.error _ => true
          | Except.ok v => fieldsIterOk v) = true := h2
        rw [hjs] at h3
        obtain ⟨t, hst⟩ := regexExtract_head content s hre
        obtain ⟨ms, hms⟩ := jsonLoads_obj_of_brace s t hst v hjs
        rw [hms] at h3 ⊢
        have h4 : isOkE (jsonIter (pyDictGet ms "fields".toList (PyJson.arr []))) = true := h3
        show isOkE (match jsonIter (pyDictGet ms "fields".toList (PyJson.arr [])) with
          | Except.error e => Except.error e
          | Except.ok items => Except.ok (items.filterMap validateGptField)) = true
        cases hit : jsonIter (pyDictGet ms "fields".toList (PyJson.arr [])) with
        | error u => rw [hit] at h4; simp [isOkE] at h4
        | ok items => rfl
  · intro content h1 h2
    have herr : jsonLoads content = .error () := by
      cases hj : jsonLoads content with
      | error u => rfl
      | ok v => rw [hj] at h1; simp [isErrE] at h1
    unfold analyzeResponseFields
    rw [herr, h2]
    rfl

/-- Claim C4 counterexample: the completion `"[]"` is valid JSON, so the
defensive fallback never runs; `response_data.get('fields', [])` is then
executed on a list and raises `AttributeError` instead of returning an
empty field list. -/
theorem c4_json_array_counterexample :
    analyzeResponseFields "[]".toList = .error () := by decide

/-- `json.loads` accepts the constant `NaN` by default, so for the
completion `"NaN"` the defensive fallback never runs and
`response_data.get('fields', [])` raises `AttributeError` on a float. -/
theorem analyzeResponseFields_nan_raises :
    isOkE (jsonLoads "NaN".toList) = true ∧
    analyzeResponseFields "NaN".toList = .error () :=
  ⟨by decide, by decide⟩

def c4Content : Str :=
  "Sure, here is the JSON: \x7b\"fields\": [\x7b\"key\": \"a\", \"value\": \"b\"\x7d]\x7d Hope this helps!".toList

def c4NoJson : Str := "I could not find any fields in this document.".toList

theorem c4_defensive_parse_witness :
    (isErrE (jsonLoads c4Content) = true ∧ regexPathOk c4Content = true ∧
     isOkE (analyzeResponseFields c4Content) = true) ∧
    (isErrE (jsonLoads c4NoJson) = true ∧ regexExtractBraces c4NoJson = none ∧
     analyzeResponseFields c4NoJson = .ok []) :=
  ⟨⟨by decide, by decide, c4_defensive_parse_no_raise.1 c4Content (by decide) (by decide)⟩,
   ⟨by decide, by decide, c4_defensive_parse_no_raise.2 c4NoJson (by decide) (by decide)⟩⟩
